import Mathlib

/-!
Verification of `polymarket_data` (betting_mkts repository).

Shallow embedding of `polymarket_data/market.py`: prices are rationals (ℚ),
timestamps are integers (epoch seconds), pandas DataFrames are lists of
records, `DataFrame.sort_values("timestamp")` is a sort by timestamp, and
Python exceptions are `Except` values.  External library functions that the
code calls (`json.loads`, `datetime.fromisoformat`) are passed in as explicit
function parameters, so theorems quantify over their behaviour.
-/

namespace BettingMkts

/-- Python's `round` on rationals: round half to even (banker's rounding). -/
def pyRoundHalfEven (q : ℚ) : ℤ :=
  let f : ℤ := ⌊q⌋
  let r : ℚ := q - f
  if r < 1/2 then f
  else if 1/2 < r then f + 1
  else if f % 2 = 0 then f else f + 1

/-- Python's `round(x, 6)`: round to 6 decimal places. -/
def round6 (q : ℚ) : ℚ :=
  (pyRoundHalfEven (q * 1000000) : ℚ) / 1000000

/-- One row of the trades DataFrames `trades_yes` / `trades_no`
(columns `timestamp`, `p`). -/
structure TradeRow where
  timestamp : ℤ
  p : ℚ
deriving Repr, DecidableEq

/-- One row of the price-history DataFrames (columns `timestamp`, `price`). -/
structure HistPoint where
  timestamp : ℤ
  price : ℚ
deriving Repr, DecidableEq

/-- The `PolymarketMarket` dataclass (market.py lines 20-49).
`end_date` is an absolute instant, modelled as an integer. -/
structure MarketState where
  market_id : String
  question : String
  event_id : Option String := none
  event_title : Option String := none
  clob_token_yes : Option String := none
  clob_token_no : Option String := none
  active : Bool := true
  closed : Bool := false
  end_date : Option ℤ := none
  best_bid_yes : Option ℚ := none
  best_ask_yes : Option ℚ := none
  best_bid_no : Option ℚ := none
  best_ask_no : Option ℚ := none
  trades_yes : Option (List TradeRow) := none
  trades_no : Option (List TradeRow) := none
  price_history_yes : Option (List HistPoint) := none
  price_history_no : Option (List HistPoint) := none
deriving Repr, DecidableEq

/-- `_derive_no_side_quotes` (market.py lines 136-143): each derived NO-side
field is assigned only when its YES-side source is present; otherwise the
statement is skipped and the field keeps its previous value. -/
def deriveNoSideQuotes (s : MarketState) : MarketState :=
  let s1 :=
    match s.best_bid_yes with
    | some b => { s with best_ask_no := some (round6 (1 - b)) }
    | none => s
  match s1.best_ask_yes with
  | some a => { s1 with best_bid_no := some (round6 (1 - a)) }
  | none => s1

/-- Digit-string value: `some n` when the characters are one or more
decimal digits. -/
def digitsVal (cs : List Char) : Option ℕ :=
  if cs.isEmpty then none
  else if cs.all (·.isDigit) then
    some (cs.foldl (fun n c => 10 * n + (c.toNat - 48)) 0)
  else none

/-- Strip leading and trailing spaces (Python `float` ignores surrounding
whitespace). -/
def trimChars (cs : List Char) : List Char :=
  ((cs.dropWhile (· = ' ')).reverse.dropWhile (· = ' ')).reverse

/-- Python's `float(s)` on decimal numerals, as used by pandas
`astype(float)`: optional sign, then digits with at most one decimal point
(`"12"`, `"0.5"`, `".5"`, `"12."`).  Anything else is non-numeric and the
coercion fails (`none`). -/
def pyFloat (s : String) : Option ℚ :=
  let signed : ℚ × List Char :=
    match trimChars s.toList with
    | '-' :: rest => (-1, rest)
    | '+' :: rest => (1, rest)
    | rest => (1, rest)
  match signed.2.splitOn '.' with
  | [ip] => (digitsVal ip).map (fun n => signed.1 * n)
  | [ip, fp] =>
    if ip.isEmpty && fp.isEmpty then none
    else if ip.all (·.isDigit) && fp.all (·.isDigit) then
      let ipv : ℚ := (ip.foldl (fun n c => 10 * n + (c.toNat - 48)) 0 : ℕ)
      let fpv : ℚ := (fp.foldl (fun n c => 10 * n + (c.toNat - 48)) 0 : ℕ)
      some (signed.1 * (ipv + fpv / (10 : ℚ) ^ fp.length))
    else none
  | _ => none

/-- A raw trade record from the Data-API `/trades` response: fields
`asset`, `price`, `timestamp` (market.py lines 193-198).  The price is the
raw wire value, coerced by `astype(float)` downstream. -/
structure RawTrade where
  asset : String
  price : String
  timestamp : ℤ
deriving Repr, DecidableEq

/-- A converted trade row of the full-market DataFrame (after
`df["price"].astype(float)`). -/
structure FTrade where
  asset : String
  price : ℚ
  timestamp : ℤ
deriving Repr, DecidableEq

def fTradeLe (a b : FTrade) : Bool := decide (a.timestamp ≤ b.timestamp)

def tradeRowLe (a b : TradeRow) : Bool := decide (a.timestamp ≤ b.timestamp)

/-- Coerce one raw trade's price: the per-record effect of
`df["price"].astype(float)`. -/
def convTrade (t : RawTrade) : Option FTrade :=
  (pyFloat t.price).map (fun p => FTrade.mk t.asset p t.timestamp)

/-- `df["price"].astype(float)` over the whole frame: converts every record,
raising (`none`) as soon as any single price is non-numeric — pandas column
casts are all-or-nothing. -/
def astypeFloatAll : List RawTrade → Option (List FTrade)
  | [] => some []
  | t :: rest =>
    match convTrade t, astypeFloatAll rest with
    | some b, some bs => some (b :: bs)
    | _, _ => none

/-- `_fetch_trades_for_market` (market.py lines 185-225), network transport
abstracted away: the raw response list is an input.  An empty response gives
an empty frame; `df["price"].astype(float)` raises on the whole batch if any
price is non-numeric; the frame is then sorted by timestamp. -/
def fetchTradesForMarket (raw : List RawTrade) : Except String (List FTrade) :=
  if raw.isEmpty then .ok []
  else
    match astypeFloatAll raw with
    | none => .error "ValueError: could not convert string to float"
    | some df => .ok (df.mergeSort fTradeLe)

/-- `load_all_trades` (market.py lines 146-183).  Returns the `(trades_yes,
trades_no)` legs on success, and a flag recording whether the network fetch
was issued (the token guard raises `ValueError` before any request). -/
def loadAllTrades (s : MarketState) (raw : List RawTrade) :
    Except String (List TradeRow × List TradeRow) × Bool :=
  match s.clob_token_yes, s.clob_token_no with
  | some ty, some tn =>
    if ty = "" ∨ tn = "" then
      (.error "ValueError: clob_token_yes/no not set. Did you use from_market_id()?", false)
    else
      match fetchTradesForMarket raw with
      | .error e => (.error e, true)
      | .ok dfAll =>
        if dfAll.isEmpty then (.ok ([], []), true)
        else
          let dfYes := (dfAll.filter (fun t => t.asset == ty)).map
            (fun t => TradeRow.mk t.timestamp t.price)
          let dfNo := (dfAll.filter (fun t => t.asset == tn)).map
            (fun t => TradeRow.mk t.timestamp t.price)
          (.ok (dfYes.mergeSort tradeRowLe, dfNo.mergeSort tradeRowLe), true)
  | _, _ =>
    (.error "ValueError: clob_token_yes/no not set. Did you use from_market_id()?", false)

/-- One row of the unified series produced by `build_yes_price_history`
(columns `timestamp`, `yes_price`, `source`). -/
structure YesRow where
  timestamp : ℤ
  yes_price : ℚ
  source : String
deriving Repr, DecidableEq

def yesRowLe (a b : YesRow) : Bool := decide (a.timestamp ≤ b.timestamp)

/-- A YES-leg trade contributes `yes_price = p`, source `"yes"`. -/
def toYesRow (r : TradeRow) : YesRow := ⟨r.timestamp, r.p, "yes"⟩

/-- A NO-leg trade contributes `yes_price = 1 - p`, source `"no"`. -/
def toNoRow (r : TradeRow) : YesRow := ⟨r.timestamp, 1 - r.p, "no"⟩

/-- `build_yes_price_history` (market.py lines 364-405): raises when neither
trade leg is loaded; otherwise appends YES rows (`yes_price = p`) then NO
rows (`yes_price = 1 - p`) and sorts the concatenation by timestamp.  The
DataFrame sort (`sort_values("timestamp")`, default `kind='quicksort'`)
guarantees only the ascending timestamp order, not the relative order of
equal timestamps; it is modelled here by one particular sort by timestamp,
and no theorem below relies on this model's tie order (the documented
contract is `sortValuesContract`). -/
def buildYesPriceHistory (s : MarketState) : Except String (List YesRow) :=
  if s.trades_yes.isNone && s.trades_no.isNone then
    .error "RuntimeError: Trades not loaded. Call load_all_trades() first."
  else
    let yesRows := (s.trades_yes.getD []).map toYesRow
    let noRows := (s.trades_no.getD []).map toNoRow
    let rows := yesRows ++ noRows
    if rows.isEmpty then .ok []
    else .ok (rows.mergeSort yesRowLe)

/-- The fidelity → interval-string mapping of `_fetch_prices_history`
(market.py lines 324-337): minutes to the Polymarket interval vocabulary,
with 30 minutes "generously" mapped to `"1h"`, anything at least 1440 to
`"1d"`, and every other value falling back to `"5m"`. -/
def fidelityToInterval (fidelity : ℤ) : String :=
  if fidelity = 1 then "1m"
  else if fidelity = 5 then "5m"
  else if fidelity = 15 then "15m"
  else if fidelity = 60 ∨ fidelity = 30 then "1h"
  else if fidelity ≥ 1440 then "1d"
  else "5m"

/-- A raw point of the `/prices-history` response `history` array:
keys `t` (epoch seconds) and `p` (price). -/
structure RawHistPoint where
  t : ℤ
  p : ℚ
deriving Repr, DecidableEq

def histLe (a b : HistPoint) : Bool := decide (a.timestamp ≤ b.timestamp)

/-- The response-normalization part of `_fetch_prices_history` (market.py
lines 351-361): empty history gives an empty frame; otherwise each raw point
becomes a `(timestamp, price)` row and the frame is sorted by timestamp.
No deduplication is applied. -/
def fetchPricesHistory (history : List RawHistPoint) : List HistPoint :=
  if history.isEmpty then []
  else (history.map (fun r => HistPoint.mk r.t r.p)).mergeSort histLe

/-- The query parameters `_fetch_prices_history` sends to
`/prices-history` (market.py lines 340-345). -/
structure HistRequest where
  market : String
  startTs : ℤ
  endTs : ℤ
  interval : String
deriving Repr, DecidableEq

/-- `load_price_history` (market.py lines 284-312): guard on tokens, then
fetch both legs over the absolute window `[now - hours_back*3600, now]`.
Returns the updated state together with the two requests issued, and a flag
recording whether any network request was issued. -/
def loadPriceHistory (s : MarketState) (now hours_back fidelity : ℤ)
    (feedYes feedNo : List RawHistPoint) :
    Except String (MarketState × HistRequest × HistRequest) × Bool :=
  match s.clob_token_yes, s.clob_token_no with
  | some ty, some tn =>
    if ty = "" ∨ tn = "" then
      (.error "ValueError: clob_token_yes/no not set. Use from_market_id() first.", false)
    else
      let end_ts := now
      let start_ts := end_ts - hours_back * 3600
      let reqYes := HistRequest.mk ty start_ts end_ts (fidelityToInterval fidelity)
      let reqNo := HistRequest.mk tn start_ts end_ts (fidelityToInterval fidelity)
      (.ok ({ s with price_history_yes := some (fetchPricesHistory feedYes),
                     price_history_no := some (fetchPricesHistory feedNo) },
            reqYes, reqNo), true)
  | _, _ =>
    (.error "ValueError: clob_token_yes/no not set. Use from_market_id() first.", false)

/-- Event context of a Gamma `/markets` record (`events[0].id/title`). -/
structure EventInfo where
  id : Option String := none
  title : Option String := none
deriving Repr, DecidableEq

/-- The fields of a Gamma `/markets` metadata record that
`from_market_id` / `refresh_quotes` read. -/
structure MarketDetails where
  question : Option String := none
  title : Option String := none
  active : Option Bool := none
  closed : Option Bool := none
  endDate : Option String := none
  clobTokenIds : Option String := none
  events : List EventInfo := []
  bestBid : Option ℚ := none
  bestAsk : Option ℚ := none
deriving Repr, DecidableEq

/-- Python `a or b or ""` over optional strings (`None` and `""` are falsy). -/
def firstTruthyStr : List (Option String) → String
  | [] => ""
  | none :: rest => firstTruthyStr rest
  | some s :: rest => if s = "" then firstTruthyStr rest else s

/-- `__post_init__` (market.py lines 52-60): an end date provided as a string
is parsed with `datetime.fromisoformat` after replacing `"Z"` with
`"+00:00"`; any parse failure yields `None`.  `parseIso` stands for
`datetime.fromisoformat` (an external library function). -/
def postInitEndDate (parseIso : String → Option ℤ) (endDate : Option String) :
    Option ℤ :=
  endDate.bind (fun s => parseIso (s.replace "Z" "+00:00"))

/-- `from_market_id` (market.py lines 63-111), with the metadata fetch
abstracted to the `details` record.  `decodeTokens` stands for `json.loads`
applied to the `clobTokenIds` field (yielding the token array or failing);
`parseIso` stands for `datetime.fromisoformat`. -/
def fromMarketId (decodeTokens : String → Option (List String))
    (parseIso : String → Option ℤ)
    (market_id : String) (details : MarketDetails) : MarketState :=
  let question := firstTruthyStr [details.question, details.title]
  let tokens : Option String × Option String :=
    match details.clobTokenIds with
    | none => (none, none)
    | some raw =>
      if raw = "" then (none, none)
      else
        match decodeTokens raw with
        | none => (none, none)
        | some ts => if 2 ≤ ts.length then (ts[0]?, ts[1]?) else (none, none)
  let event_id := match details.events with | [] => none | e :: _ => e.id
  let event_title := match details.events with | [] => none | e :: _ => e.title
  deriveNoSideQuotes
    { market_id := market_id, question := question,
      event_id := event_id, event_title := event_title,
      clob_token_yes := tokens.1, clob_token_no := tokens.2,
      active := details.active.getD false, closed := details.closed.getD false,
      end_date := postInitEndDate parseIso details.endDate,
      best_bid_yes := details.bestBid, best_ask_yes := details.bestAsk }

/-- `refresh_quotes` (market.py lines 114-134): overwrite YES quotes and
status; re-parse the end date only when one is present (Python truthiness),
and on parse failure `pass` — the previous `end_date` is kept; finally
re-derive NO-side quotes. -/
def refreshQuotes (parseIso : String → Option ℤ)
    (s : MarketState) (details : MarketDetails) : MarketState :=
  let s1 := { s with best_bid_yes := details.bestBid,
                     best_ask_yes := details.bestAsk,
                     active := details.active.getD false,
                     closed := details.closed.getD false }
  let s2 :=
    match details.endDate with
    | none => s1
    | some ed =>
      if ed = "" then s1
      else
        match parseIso (ed.replace "Z" "+00:00") with
        | some d => { s1 with end_date := some d }
        | none => s1
  deriveNoSideQuotes s2

end BettingMkts

namespace BettingMkts

/-- A market state with a stale derived quote and an absent source quote:
reachable, e.g., after `refresh_quotes` returns a payload without `bestBid`
(the code sets `best_bid_yes = None` and then derives). -/
def staleState : MarketState :=
  { market_id := "mkt-1", question := "q?",
    best_bid_yes := none, best_ask_yes := none,
    best_ask_no := some (1/2), best_bid_no := some (2/5) }

/-- C1 counterexample: with `best_bid_yes` absent, the claim says the derived
`best_ask_no` is absent after derivation; the code leaves the previous value
`1/2` in place. -/
theorem deriveNoSideQuotes_stale_not_cleared :
    (deriveNoSideQuotes staleState).best_ask_no = some (1/2) ∧
      (deriveNoSideQuotes staleState).best_ask_no ≠ none := by
  constructor <;> simp [deriveNoSideQuotes, staleState]

/-- C1 (amended): derivation sets `ask_no = round6 (1 - bid_yes)` when
`bid_yes` is present and `bid_no = round6 (1 - ask_yes)` when `ask_yes` is
present; when a source field is absent the corresponding derived field is
left unchanged (hence absent whenever it was already absent, as at
construction), not cleared. -/
theorem deriveNoSideQuotes_spec (s : MarketState) :
    (∀ b, s.best_bid_yes = some b →
      (deriveNoSideQuotes s).best_ask_no = some (round6 (1 - b))) ∧
    (s.best_bid_yes = none →
      (deriveNoSideQuotes s).best_ask_no = s.best_ask_no) ∧
    (∀ a, s.best_ask_yes = some a →
      (deriveNoSideQuotes s).best_bid_no = some (round6 (1 - a))) ∧
    (s.best_ask_yes = none →
      (deriveNoSideQuotes s).best_bid_no = s.best_bid_no) := by
  unfold deriveNoSideQuotes
  rcases hb : s.best_bid_yes with _ | b <;>
    rcases ha : s.best_ask_yes with _ | a <;>
      simp [hb, ha]

/-- The spec scenario's market state: `bid_yes = 0.62`, `ask_yes = 0.65`. -/
def scenarioState : MarketState :=
  { market_id := "mkt-1", question := "q?",
    best_bid_yes := some (62/100), best_ask_yes := some (65/100) }

/-- C1 witness: the spec scenario `bid_yes = 0.62`, `ask_yes = 0.65` gives
`ask_no = 0.38` and `bid_no = 0.35`. -/
theorem deriveNoSideQuotes_spec_witness :
    (deriveNoSideQuotes scenarioState).best_ask_no = some (38/100) ∧
    (deriveNoSideQuotes scenarioState).best_bid_no = some (35/100) := by
  refine ⟨?_, ?_⟩
  · have h := (deriveNoSideQuotes_spec scenarioState).1 (62/100) rfl
    rw [h]
    norm_num [round6, pyRoundHalfEven]
  · have h := (deriveNoSideQuotes_spec scenarioState).2.2.1 (65/100) rfl
    rw [h]
    norm_num [round6, pyRoundHalfEven]

end BettingMkts

namespace BettingMkts

lemma yesRowLe_trans : ∀ a b c : YesRow, yesRowLe a b → yesRowLe b c → yesRowLe a c := by
  intro a b c
  simp only [yesRowLe, decide_eq_true_eq]
  omega

lemma yesRowLe_total : ∀ a b : YesRow, yesRowLe a b || yesRowLe b a := by
  intro a b
  simp only [yesRowLe, Bool.or_eq_true, decide_eq_true_eq]
  omega

/-- The merge scenario of the spec: one YES trade `(t=100, 0.40)` and one NO
trade `(t=100, 0.55)` loaded. -/
def mergeScenario : MarketState :=
  { market_id := "mkt-1", question := "q?",
    trades_yes := some [⟨100, 40/100⟩],
    trades_no := some [⟨100, 55/100⟩] }

/-- Row rank used by `unstableTimestampSort`: NO-side rows before YES-side
rows. -/
def noFirstRank (r : YesRow) : ℕ := if r.source = "no" then 0 else 1

/-- The order used by `unstableTimestampSort`: ascending timestamp, with
NO-side rows before YES-side rows at equal timestamps. -/
def noFirstRel (a b : YesRow) : Prop :=
  a.timestamp < b.timestamp ∨
    (a.timestamp = b.timestamp ∧ noFirstRank a ≤ noFirstRank b)

instance : DecidableRel noFirstRel := fun a b => by
  unfold noFirstRel
  infer_instance

instance : IsTotal YesRow noFirstRel :=
  ⟨by intro a b; unfold noFirstRel; omega⟩

instance : IsTrans YesRow noFirstRel :=
  ⟨by intro a b c hab hbc; unfold noFirstRel at hab hbc ⊢; omega⟩

/-- Everything pandas documents for `df.sort_values("timestamp")` with the
default `kind='quicksort'`: the result is a permutation of the rows,
ascending in the key column.  The relative order of rows with equal keys is
not part of this contract — only `kind='mergesort'`/`'stable'` is stable. -/
def sortValuesContract (f : List YesRow → List YesRow) : Prop :=
  ∀ rows : List YesRow,
    (f rows).Perm rows ∧
      (f rows).Pairwise (fun a b => a.timestamp ≤ b.timestamp)

/-- A sort that satisfies the whole `sort_values` contract yet orders NO-side
rows before YES-side rows at equal timestamps. -/
def unstableTimestampSort (rows : List YesRow) : List YesRow :=
  List.insertionSort noFirstRel rows

lemma sortValuesContract_unstable : sortValuesContract unstableTimestampSort := by
  intro rows
  refine ⟨List.perm_insertionSort _ _, ?_⟩
  exact (List.sorted_insertionSort noFirstRel rows).imp
    (fun h => by unfold noFirstRel at h; omega)

/-- C2 counterexample: the claimed stable YES-before-NO tie order is not
guaranteed by the program.  `build_yes_price_history` sorts the concatenated
rows with `df.sort_values("timestamp")` under the default
`kind='quicksort'`, whose contract fixes only the multiset of rows and the
ascending timestamp order; `unstableTimestampSort` satisfies that whole
contract and yet, on exactly the scenario's concatenated rows (YES
`(100, 0.40)` followed by NO `(100, 0.45)`), returns the NO-side row first —
the opposite of the claimed tie order. -/
theorem buildYesPriceHistory_tie_order_not_guaranteed :
    sortValuesContract unstableTimestampSort ∧
    (unstableTimestampSort
        (([⟨100, 40/100⟩] : List TradeRow).map toYesRow ++
          ([⟨100, 55/100⟩] : List TradeRow).map toNoRow)).map
        (fun r => r.source) = ["no", "yes"] ∧
    (["no", "yes"] : List String) ≠ ["yes", "no"] := by
  refine ⟨sortValuesContract_unstable, ?_, by decide⟩
  rfl

/-- C2 (amended): when both trade legs are loaded, the unified YES-price
series is a timestamp-sorted permutation of the concatenation in which each
YES-leg point contributes `yes_price = price` and each NO-leg point
contributes `yes_price = 1 - price`, with no deduplication across legs (its
length is the sum of the leg lengths); the relative order of points at equal
timestamps is not guaranteed.  In the spec scenario, YES `(100, 0.40)` and
NO `(100, 0.55)` yield exactly the two points `(100, 0.40, yes)` and
`(100, 0.45, no)` — both retained, in an unspecified tie order. -/
theorem buildYesPriceHistory_trade_merge :
    (∀ (s : MarketState) (ty tn : List TradeRow),
      s.trades_yes = some ty → s.trades_no = some tn →
      ∃ out, buildYesPriceHistory s = .ok out ∧
        out.Perm (ty.map toYesRow ++ tn.map toNoRow) ∧
        out.Pairwise (fun a b => a.timestamp ≤ b.timestamp) ∧
        out.length = ty.length + tn.length) ∧
    (∃ out, buildYesPriceHistory mergeScenario = .ok out ∧
      out.Perm [YesRow.mk 100 (40/100) "yes", YesRow.mk 100 (45/100) "no"]) := by
  have hgen : ∀ (s : MarketState) (ty tn : List TradeRow),
      s.trades_yes = some ty → s.trades_no = some tn →
      ∃ out, buildYesPriceHistory s = .ok out ∧
        out.Perm (ty.map toYesRow ++ tn.map toNoRow) ∧
        out.Pairwise (fun a b => a.timestamp ≤ b.timestamp) ∧
        out.length = ty.length + tn.length := by
    intro s ty tn hy hn
    refine ⟨(ty.map toYesRow ++ tn.map toNoRow).mergeSort yesRowLe, ?_, ?_, ?_, ?_⟩
    · unfold buildYesPriceHistory
      rw [hy, hn]
      simp only [Option.isNone_some, Bool.and_self, Bool.false_eq_true, if_false,
        Option.getD_some]
      by_cases h : (ty.map toYesRow ++ tn.map toNoRow).isEmpty
      · rw [if_pos h]
        rw [List.isEmpty_iff] at h
        rw [h]
        simp
      · rw [if_neg h]
    · exact List.mergeSort_perm _ _
    · exact (List.sorted_mergeSort yesRowLe_trans yesRowLe_total _).imp
        (by simp only [yesRowLe, decide_eq_true_eq]; exact fun h => h)
    · rw [List.length_mergeSort]
      simp
  refine ⟨hgen, ?_⟩
  obtain ⟨out, hout, hperm, -, -⟩ :=
    hgen mergeScenario [⟨100, 40/100⟩] [⟨100, 55/100⟩] rfl rfl
  refine ⟨out, hout, hperm.trans ?_⟩
  have hconcat : ([⟨100, 40/100⟩] : List TradeRow).map toYesRow ++
      ([⟨100, 55/100⟩] : List TradeRow).map toNoRow =
      [YesRow.mk 100 (40/100) "yes", YesRow.mk 100 (1 - 55/100) "no"] := by
    simp [toYesRow, toNoRow]
  rw [hconcat]
  have hinv : (1 : ℚ) - 55/100 = 45/100 := by norm_num
  rw [hinv]

/-- C2 witness: the general part applied to the concrete scenario state. -/
theorem buildYesPriceHistory_trade_merge_witness :
    ∃ out, buildYesPriceHistory mergeScenario = .ok out ∧
      out.Perm (([⟨100, 40/100⟩] : List TradeRow).map toYesRow ++
                ([⟨100, 55/100⟩] : List TradeRow).map toNoRow) ∧
      out.Pairwise (fun a b => a.timestamp ≤ b.timestamp) ∧
      out.length = 1 + 1 :=
  buildYesPriceHistory_trade_merge.1 mergeScenario [⟨100, 40/100⟩] [⟨100, 55/100⟩] rfl rfl

/-- C10: building the unified YES-price series fails exactly when neither
trade leg has been loaded; whenever at least one leg is present — even an
empty one — it returns an `ok` list of `(timestamp, yes_price, source)`
rows. -/
theorem buildYesPriceHistory_fails_iff_no_legs :
    (∀ s : MarketState, s.trades_yes = none → s.trades_no = none →
      buildYesPriceHistory s =
        .error "RuntimeError: Trades not loaded. Call load_all_trades() first.") ∧
    (∀ s : MarketState, s.trades_yes ≠ none ∨ s.trades_no ≠ none →
      ∃ rows, buildYesPriceHistory s = .ok rows) := by
  constructor
  · intro s hy hn
    unfold buildYesPriceHistory
    rw [hy, hn]
    simp
  · intro s h
    unfold buildYesPriceHistory
    have hcond : (s.trades_yes.isNone && s.trades_no.isNone) = false := by
      rcases h with h | h <;> rcases hy : s.trades_yes with _ | v <;>
        rcases hn : s.trades_no with _ | w <;> simp_all
    rw [hcond]
    simp only [Bool.false_eq_true, if_false]
    by_cases he : ((s.trades_yes.getD []).map toYesRow ++
        (s.trades_no.getD []).map toNoRow).isEmpty
    · exact ⟨[], by rw [if_pos he]⟩
    · exact ⟨_, by rw [if_neg he]⟩

/-- C10 witness: a state with an empty YES leg loaded and no NO leg returns
an `ok` (empty) series; a state with neither leg errors. -/
theorem buildYesPriceHistory_fails_iff_no_legs_witness :
    (∃ rows, buildYesPriceHistory
      { market_id := "m", question := "q", trades_yes := some [] } = .ok rows) ∧
    buildYesPriceHistory { market_id := "m", question := "q" } =
      .error "RuntimeError: Trades not loaded. Call load_all_trades() first." :=
  ⟨buildYesPriceHistory_fails_iff_no_legs.2
      { market_id := "m", question := "q", trades_yes := some [] }
      (Or.inl (by simp)),
   buildYesPriceHistory_fails_iff_no_legs.1
      { market_id := "m", question := "q" } rfl rfl⟩

end BettingMkts

namespace BettingMkts

/-- The projection of a converted trade into a leg row (columns
`timestamp`, `p`). -/
def projRow (t : FTrade) : TradeRow := ⟨t.timestamp, t.price⟩

/-- A raw trade's leg row, when its price is numeric. -/
def rawToRow (t : RawTrade) : Option TradeRow :=
  (pyFloat t.price).map (fun q => TradeRow.mk t.timestamp q)

lemma convTrade_asset {t : RawTrade} {b : FTrade} (h : convTrade t = some b) :
    b.asset = t.asset := by
  unfold convTrade at h
  cases hp : pyFloat t.price with
  | none => rw [hp] at h; cases h
  | some q => rw [hp] at h; cases h; rfl

lemma convTrade_map_projRow (t : RawTrade) :
    (convTrade t).map projRow = rawToRow t := by
  unfold convTrade rawToRow
  cases pyFloat t.price <;> rfl

lemma astypeFloatAll_eq_filterMap {raw : List RawTrade} {l : List FTrade}
    (h : astypeFloatAll raw = some l) : l = raw.filterMap convTrade := by
  induction raw generalizing l with
  | nil => cases h; rfl
  | cons t rest ih =>
    unfold astypeFloatAll at h
    cases hc : convTrade t with
    | none => rw [hc] at h; cases h
    | some b =>
      rw [hc] at h
      cases hr : astypeFloatAll rest with
      | none => rw [hr] at h; cases h
      | some bs =>
        rw [hr] at h
        cases h
        rw [List.filterMap_cons, hc, ih hr]

lemma astypeFloatAll_isSome {raw : List RawTrade}
    (hwf : ∀ t ∈ raw, (pyFloat t.price).isSome) :
    ∃ l, astypeFloatAll raw = some l := by
  induction raw with
  | nil => exact ⟨[], rfl⟩
  | cons t rest ih =>
    obtain ⟨l, hl⟩ := ih (fun u hu => hwf u (List.mem_cons_of_mem _ hu))
    have ht := hwf t (List.mem_cons_self _ _)
    rw [Option.isSome_iff_exists] at ht
    obtain ⟨q, hq⟩ := ht
    refine ⟨FTrade.mk t.asset q t.timestamp :: l, ?_⟩
    unfold astypeFloatAll
    rw [show convTrade t = some (FTrade.mk t.asset q t.timestamp) by
      unfold convTrade; rw [hq]; rfl, hl]

lemma astypeFloatAll_eq_none {raw : List RawTrade} {t : RawTrade}
    (ht : t ∈ raw) (hbad : pyFloat t.price = none) :
    astypeFloatAll raw = none := by
  induction raw with
  | nil => cases ht
  | cons u rest ih =>
    unfold astypeFloatAll
    rcases List.mem_cons.mp ht with rfl | hmem
    · rw [show convTrade t = none by unfold convTrade; rw [hbad]; rfl]
    · cases hc : convTrade u with
      | none => rfl
      | some b => rw [ih hmem]

lemma length_astypeFloatAll {raw : List RawTrade} {l : List FTrade}
    (h : astypeFloatAll raw = some l) : l.length = raw.length := by
  induction raw generalizing l with
  | nil => cases h; rfl
  | cons t rest ih =>
    unfold astypeFloatAll at h
    cases hc : convTrade t with
    | none => rw [hc] at h; cases h
    | some b =>
      rw [hc] at h
      cases hr : astypeFloatAll rest with
      | none => rw [hr] at h; cases h
      | some bs =>
        rw [hr] at h
        cases h
        simp [ih hr]

end BettingMkts

namespace BettingMkts

lemma filterMap_convTrade_filter (tok : String) (raw : List RawTrade) :
    (raw.filterMap convTrade).filter (fun t => t.asset == tok) =
      (raw.filter (fun t => t.asset == tok)).filterMap convTrade := by
  induction raw with
  | nil => rfl
  | cons t rest ih =>
    rw [List.filterMap_cons, List.filter_cons]
    cases hc : convTrade t with
    | none =>
      by_cases ha : (t.asset == tok) = true
      · rw [if_pos ha, List.filterMap_cons, hc, ih]
      · rw [if_neg ha, ih]
    | some b =>
      have hb : b.asset = t.asset := convTrade_asset hc
      by_cases ha : (t.asset == tok) = true
      · rw [if_pos ha, List.filter_cons, if_pos (by rw [hb]; exact ha),
          List.filterMap_cons, hc, ih]
      · rw [if_neg ha, List.filter_cons, if_neg (by rw [hb]; exact ha), ih]

lemma length_filterMap_rawToRow {l : List RawTrade}
    (hwf : ∀ t ∈ l, (pyFloat t.price).isSome) :
    (l.filterMap rawToRow).length = l.length := by
  induction l with
  | nil => rfl
  | cons t rest ih =>
    have ht := hwf t (List.mem_cons_self _ _)
    rw [Option.isSome_iff_exists] at ht
    obtain ⟨q, hq⟩ := ht
    rw [List.filterMap_cons,
      show rawToRow t = some (TradeRow.mk t.timestamp q) by
        unfold rawToRow; rw [hq]; rfl]
    simp only [List.length_cons]
    rw [ih (fun u hu => hwf u (List.mem_cons_of_mem _ hu))]

lemma filter_or_length {α : Type} {p q : α → Bool}
    (h : ∀ a, ¬(p a = true ∧ q a = true)) (l : List α) :
    (l.filter (fun a => p a || q a)).length =
      (l.filter p).length + (l.filter q).length := by
  induction l with
  | nil => rfl
  | cons a rest ih =>
    simp only [List.filter_cons]
    by_cases hp : p a = true
    · have hq : ¬(q a = true) := fun hq => h a ⟨hp, hq⟩
      simp [hp, hq, ih]
      omega
    · by_cases hq : q a = true <;> (simp [hp, hq, ih]; try omega)

lemma tradeRowLe_trans :
    ∀ a b c : TradeRow, tradeRowLe a b → tradeRowLe b c → tradeRowLe a c := by
  intro a b c
  simp only [tradeRowLe, decide_eq_true_eq]
  omega

lemma tradeRowLe_total : ∀ a b : TradeRow, tradeRowLe a b || tradeRowLe b a := by
  intro a b
  simp only [tradeRowLe, Bool.or_eq_true, decide_eq_true_eq]
  omega

lemma map_proj_filterMap_convTrade (m : List RawTrade) :
    (m.filterMap convTrade).map (fun t => TradeRow.mk t.timestamp t.price) =
      m.filterMap rawToRow := by
  induction m with
  | nil => rfl
  | cons t rest ih =>
    rw [List.filterMap_cons, List.filterMap_cons]
    cases hp : pyFloat t.price with
    | none =>
      rw [show convTrade t = none by unfold convTrade; rw [hp]; rfl,
        show rawToRow t = none by unfold rawToRow; rw [hp]; rfl, ih]
    | some q =>
      rw [show convTrade t = some (FTrade.mk t.asset q t.timestamp) by
            unfold convTrade; rw [hp]; rfl,
        show rawToRow t = some (TradeRow.mk t.timestamp q) by
            unfold rawToRow; rw [hp]; rfl,
        List.map_cons, ih]

/-- C3: splitting is a partition.  With both tokens present, distinct and
nonempty, and every price numeric, `load_all_trades` succeeds; the YES leg is
(as a multiset) exactly the rows of the input trades whose asset equals
`token_yes`, the NO leg exactly those whose asset equals `token_no` (so with
distinct tokens each matching trade lands in exactly one leg), trades
matching neither token contribute to neither leg (the leg lengths sum to the
count of matching trades), and each leg is sorted ascending by timestamp. -/
theorem loadAllTrades_partition (s : MarketState) (ty tn : String)
    (raw : List RawTrade)
    (hty : s.clob_token_yes = some ty) (htn : s.clob_token_no = some tn)
    (hne : ty ≠ tn) (hty' : ty ≠ "") (htn' : tn ≠ "")
    (hwf : ∀ t ∈ raw, (pyFloat t.price).isSome) :
    ∃ yesLeg noLeg,
      loadAllTrades s raw = (.ok (yesLeg, noLeg), true) ∧
      yesLeg.Perm ((raw.filter (fun t => t.asset == ty)).filterMap rawToRow) ∧
      noLeg.Perm ((raw.filter (fun t => t.asset == tn)).filterMap rawToRow) ∧
      yesLeg.Pairwise (fun a b => a.timestamp ≤ b.timestamp) ∧
      noLeg.Pairwise (fun a b => a.timestamp ≤ b.timestamp) ∧
      yesLeg.length + noLeg.length =
        (raw.filter (fun t => t.asset == ty || t.asset == tn)).length := by
  have hdisj : ∀ t : RawTrade,
      ¬((t.asset == ty) = true ∧ (t.asset == tn) = true) := by
    intro t ⟨h1, h2⟩
    exact hne ((eq_of_beq h1).symm.trans (eq_of_beq h2))
  obtain ⟨l, hl⟩ := astypeFloatAll_isSome hwf
  have hlfm := astypeFloatAll_eq_filterMap hl
  have hperm : ∀ tok : String,
      ((((l.mergeSort fTradeLe).filter (fun t => t.asset == tok)).map
          (fun t => TradeRow.mk t.timestamp t.price)).mergeSort tradeRowLe).Perm
        ((raw.filter (fun t => t.asset == tok)).filterMap rawToRow) := by
    intro tok
    refine (List.mergeSort_perm _ _).trans ?_
    have h1 : ((l.mergeSort fTradeLe).filter (fun t => t.asset == tok)).Perm
        (l.filter (fun t => t.asset == tok)) :=
      (List.mergeSort_perm l fTradeLe).filter _
    refine (h1.map _).trans ?_
    rw [hlfm, filterMap_convTrade_filter, map_proj_filterMap_convTrade]
  have hlen : ∀ tok : String,
      ((raw.filter (fun t => t.asset == tok)).filterMap rawToRow).length =
        (raw.filter (fun t => t.asset == tok)).length := by
    intro tok
    exact length_filterMap_rawToRow
      (fun t ht => hwf t (List.mem_of_mem_filter ht))
  have hsorted : ∀ m : List TradeRow,
      (m.mergeSort tradeRowLe).Pairwise
        (fun a b : TradeRow => a.timestamp ≤ b.timestamp) :=
    fun m => (List.sorted_mergeSort tradeRowLe_trans tradeRowLe_total m).imp
      (by simp only [tradeRowLe, decide_eq_true_eq]; exact fun h => h)
  by_cases hraw : raw.isEmpty
  · have hrawnil : raw = [] := List.isEmpty_iff.mp hraw
    subst hrawnil
    refine ⟨[], [], ?_, by simp, by simp, by simp, by simp, by simp⟩
    unfold loadAllTrades
    rw [hty, htn]
    dsimp only
    rw [if_neg (not_or.mpr ⟨hty', htn'⟩)]
    rfl
  · have hfetch : fetchTradesForMarket raw = .ok (l.mergeSort fTradeLe) := by
      unfold fetchTradesForMarket
      rw [if_neg (by simp [hraw]), hl]
    have hdfne : (l.mergeSort fTradeLe).isEmpty = false := by
      have h1 : (l.mergeSort fTradeLe).length = raw.length := by
        rw [List.length_mergeSort, length_astypeFloatAll hl]
      rcases hr : raw with _ | ⟨t, rest⟩
      · rw [hr] at hraw; cases hraw rfl
      · rw [hr] at h1
        rcases hm : l.mergeSort fTradeLe with _ | ⟨u, us⟩
        · rw [hm] at h1; simp at h1
        · rfl
    refine ⟨_, _, ?_, hperm ty, hperm tn, hsorted _, hsorted _, ?_⟩
    · unfold loadAllTrades
      rw [hty, htn]
      dsimp only
      rw [if_neg (not_or.mpr ⟨hty', htn'⟩), hfetch]
      simp only [hdfne, Bool.false_eq_true, if_false]
    · rw [(hperm ty).length_eq, (hperm tn).length_eq, hlen ty, hlen tn,
        filter_or_length hdisj]

end BettingMkts

namespace BettingMkts

/-- A market state whose tokens are set (as `from_market_id` would set
them). -/
def tokState : MarketState :=
  { market_id := "mkt-1", question := "q?",
    clob_token_yes := some "tokY", clob_token_no := some "tokN" }

/-- A raw batch of three well-formed trades: one YES, one NO, one for an
unrelated asset. -/
def goodBatch : List RawTrade :=
  [⟨"tokY", "0.5", 2⟩, ⟨"tokN", "0.25", 1⟩, ⟨"other", "0.9", 3⟩]

/-- A raw batch whose second trade has a non-numeric price. -/
def badBatch : List RawTrade :=
  [⟨"tokY", "0.5", 1⟩, ⟨"tokY", "abc", 2⟩]

/-- C3 witness: the partition theorem applied to a concrete three-trade
batch with distinct tokens. -/
theorem loadAllTrades_partition_witness :
    ∃ yesLeg noLeg,
      loadAllTrades tokState goodBatch = (.ok (yesLeg, noLeg), true) ∧
      yesLeg.Perm ((goodBatch.filter (fun t => t.asset == "tokY")).filterMap rawToRow) ∧
      noLeg.Perm ((goodBatch.filter (fun t => t.asset == "tokN")).filterMap rawToRow) ∧
      yesLeg.Pairwise (fun a b => a.timestamp ≤ b.timestamp) ∧
      noLeg.Pairwise (fun a b => a.timestamp ≤ b.timestamp) ∧
      yesLeg.length + noLeg.length =
        (goodBatch.filter (fun t => t.asset == "tokY" || t.asset == "tokN")).length :=
  loadAllTrades_partition tokState "tokY" "tokN" goodBatch rfl rfl
    (by decide) (by decide) (by decide) (by decide)

/-- C4 counterexample: a batch containing one trade with the non-numeric
price `"abc"` makes the whole load fail with the `astype(float)` error; the
claimed legs-from-the-remaining-trades result is not produced. -/
theorem loadAllTrades_bad_price_fails_batch :
    loadAllTrades tokState badBatch =
      (.error "ValueError: could not convert string to float", true) ∧
    ∀ legs, loadAllTrades tokState badBatch ≠ (.ok legs, true) := by
  constructor
  · rfl
  · intro legs h
    rw [show loadAllTrades tokState badBatch =
      (.error "ValueError: could not convert string to float", true) from rfl] at h
    cases h

/-- C4 (amended): a non-numeric price anywhere in the batch fails the whole
load — `astype(float)` raises on the full column, so no single-trade drop
happens and no legs are returned. -/
theorem loadAllTrades_malformed_price_fails (s : MarketState) (ty tn : String)
    (raw : List RawTrade) (t : RawTrade)
    (hty : s.clob_token_yes = some ty) (htn : s.clob_token_no = some tn)
    (hty' : ty ≠ "") (htn' : tn ≠ "")
    (ht : t ∈ raw) (hbad : pyFloat t.price = none) :
    loadAllTrades s raw =
      (.error "ValueError: could not convert string to float", true) := by
  have hraw : raw.isEmpty = false := by
    rcases raw with _ | ⟨u, us⟩
    · cases ht
    · rfl
  have hfetch : fetchTradesForMarket raw =
      .error "ValueError: could not convert string to float" := by
    unfold fetchTradesForMarket
    rw [if_neg (by simp [hraw]), astypeFloatAll_eq_none ht hbad]
  unfold loadAllTrades
  rw [hty, htn]
  dsimp only
  rw [if_neg (not_or.mpr ⟨hty', htn'⟩), hfetch]

/-- C4 amended witness: the failing batch from the counterexample,
instantiating the amended theorem at its malformed second trade. -/
theorem loadAllTrades_malformed_price_fails_witness :
    loadAllTrades tokState badBatch =
      (.error "ValueError: could not convert string to float", true) :=
  loadAllTrades_malformed_price_fails tokState "tokY" "tokN" badBatch
    ⟨"tokY", "abc", 2⟩ rfl rfl (by decide) (by decide)
    (by simp [badBatch]) (by decide)

end BettingMkts

namespace BettingMkts

/-- C5 counterexample: a 30-minute bucket is outside the claimed supported
set {1, 5, 15, 60, 1440}, yet the code maps it to the 1-hour bucket, not the
claimed 5-minute fallback. -/
theorem fidelityToInterval_30_not_5m :
    fidelityToInterval 30 = "1h" ∧ fidelityToInterval 30 ≠ "5m" := by
  constructor <;> decide

/-- C5 (amended): sizes 1, 5, 15, 60 map to their own buckets and 1440 (and
anything larger) maps to the 1-day bucket; but 30 is "generously" mapped to
the 1-hour bucket and every value of at least 1440 maps to the 1-day bucket,
so only the remaining sizes fall back to the 5-minute bucket.  In particular
7 falls back to "5m". -/
theorem fidelityToInterval_spec (f : ℤ) :
    (f = 1 → fidelityToInterval f = "1m") ∧
    (f = 5 → fidelityToInterval f = "5m") ∧
    (f = 15 → fidelityToInterval f = "15m") ∧
    (f = 30 ∨ f = 60 → fidelityToInterval f = "1h") ∧
    (f ≥ 1440 → fidelityToInterval f = "1d") ∧
    (¬(f = 1 ∨ f = 5 ∨ f = 15 ∨ f = 30 ∨ f = 60) → f < 1440 →
      fidelityToInterval f = "5m") ∧
    fidelityToInterval 7 = "5m" := by
  refine ⟨?_, ?_, ?_, ?_, ?_, ?_, by decide⟩ <;>
    intros <;> unfold fidelityToInterval <;> split_ifs <;>
      first
        | rfl
        | omega

/-- C5 witness: the amended mapping at concrete inputs 1440 and 7. -/
theorem fidelityToInterval_spec_witness :
    fidelityToInterval 1440 = "1d" ∧ fidelityToInterval 7 = "5m" :=
  ⟨(fidelityToInterval_spec 1440).2.2.2.2.1 (by decide),
   (fidelityToInterval_spec 7).2.2.2.2.2.2⟩

end BettingMkts

namespace BettingMkts

lemma histLe_trans : ∀ a b c : HistPoint, histLe a b → histLe b c → histLe a c := by
  intro a b c
  simp only [histLe, decide_eq_true_eq]
  omega

lemma histLe_total : ∀ a b : HistPoint, histLe a b || histLe b a := by
  intro a b
  simp only [histLe, Bool.or_eq_true, decide_eq_true_eq]
  omega

/-- A synthetic history feed with two points at the same timestamp. -/
def dupFeed : List RawHistPoint := [⟨100, 2/5⟩, ⟨100, 1/2⟩]

/-- C8 counterexample: two history points at the identical timestamp are
both kept in the normalized per-leg series (length 2), not collapsed to
one — the code has no deduplication. -/
theorem fetchPricesHistory_no_dedup :
    (fetchPricesHistory dupFeed).length = 2 ∧
      (fetchPricesHistory dupFeed).length ≠ 1 := by
  have h : (fetchPricesHistory dupFeed).length = 2 := by
    unfold fetchPricesHistory dupFeed
    rw [if_neg (by decide)]
    rw [List.length_mergeSort]
    rfl
  exact ⟨h, by rw [h]; decide⟩

/-- A synthetic history feed of 3 points at distinct timestamps. -/
def feedY3 : List RawHistPoint := [⟨100, 1/2⟩, ⟨200, 3/5⟩, ⟨300, 7/10⟩]

/-- A synthetic history feed of 2 points at distinct timestamps. -/
def feedN2 : List RawHistPoint := [⟨100, 1/2⟩, ⟨250, 2/5⟩]

/-- C8 (amended): the per-token normalized series keeps every input point —
it is a timestamp-sorted permutation of the feed, its length always equals
the feed's length, and no exact-timestamp deduplication is applied.  In
particular a synthetic feed of 3 YES points and 2 NO points at distinct
timestamps is stored as per-leg series of exactly 3 and 2 points. -/
theorem fetchPricesHistory_keeps_all_points :
    (∀ feed : List RawHistPoint,
      (fetchPricesHistory feed).length = feed.length ∧
      (fetchPricesHistory feed).Perm (feed.map (fun r => HistPoint.mk r.t r.p)) ∧
      (fetchPricesHistory feed).Pairwise
        (fun a b => a.timestamp ≤ b.timestamp)) ∧
    (∃ st reqYes reqNo,
      loadPriceHistory tokState 1000000 24 5 feedY3 feedN2 =
        (.ok (st, reqYes, reqNo), true) ∧
      st.price_history_yes = some (fetchPricesHistory feedY3) ∧
      st.price_history_no = some (fetchPricesHistory feedN2) ∧
      (fetchPricesHistory feedY3).length = 3 ∧
      (fetchPricesHistory feedN2).length = 2) := by
  have hgen : ∀ feed : List RawHistPoint,
      (fetchPricesHistory feed).length = feed.length ∧
      (fetchPricesHistory feed).Perm (feed.map (fun r => HistPoint.mk r.t r.p)) ∧
      (fetchPricesHistory feed).Pairwise
        (fun a b => a.timestamp ≤ b.timestamp) := by
    intro feed
    unfold fetchPricesHistory
    by_cases he : feed.isEmpty
    · rw [if_pos he, List.isEmpty_iff.mp he]
      exact ⟨rfl, List.Perm.refl _, List.Pairwise.nil⟩
    · rw [if_neg he]
      refine ⟨?_, List.mergeSort_perm _ _, ?_⟩
      · rw [List.length_mergeSort, List.length_map]
      · exact (List.sorted_mergeSort histLe_trans histLe_total _).imp
          (by simp only [histLe, decide_eq_true_eq]; exact fun h => h)
  refine ⟨hgen, ?_⟩
  refine ⟨_, _, _, rfl, rfl, rfl, ?_, ?_⟩
  · rw [(hgen feedY3).1]; rfl
  · rw [(hgen feedN2).1]; rfl

/-- C9 counterexample: a relative request with a 2-hour lookback (and the
default 5-minute bucket) is issued as an absolute `[now - 7200, now]` window
with interval `"5m"` — not the claimed 6-hour named interval; likewise a
200-hour lookback is issued with interval `"5m"`, not an unbounded named
interval. -/
theorem loadPriceHistory_lookback_not_named_interval :
    loadPriceHistory tokState 1000000 2 5 [] [] =
      (.ok ({ tokState with price_history_yes := some [],
                            price_history_no := some [] },
            ⟨"tokY", 992800, 1000000, "5m"⟩,
            ⟨"tokN", 992800, 1000000, "5m"⟩), true) ∧
    loadPriceHistory tokState 1000000 200 5 [] [] =
      (.ok ({ tokState with price_history_yes := some [],
                            price_history_no := some [] },
            ⟨"tokY", 280000, 1000000, "5m"⟩,
            ⟨"tokN", 280000, 1000000, "5m"⟩), true) ∧
    ("5m" : String) ≠ "6h" ∧ ("5m" : String) ≠ "1w" := by
  exact ⟨rfl, rfl, by decide, by decide⟩

/-- C9 (amended): every history request is issued in absolute mode: the
lookback in hours is converted to the explicit window
`[now - hours_back * 3600, now]`, and the `interval` parameter encodes the
bucket size via the fidelity mapping (one of `"1m"`, `"5m"`, `"15m"`,
`"1h"`, `"1d"`); no named relative-interval vocabulary (1h/6h/1d/1w/max
chosen by smallest covering lookback) exists in the code. -/
theorem loadPriceHistory_absolute_mode (s : MarketState) (ty tn : String)
    (now hb fid : ℤ) (fy fn : List RawHistPoint)
    (hty : s.clob_token_yes = some ty) (htn : s.clob_token_no = some tn)
    (hty' : ty ≠ "") (htn' : tn ≠ "") :
    loadPriceHistory s now hb fid fy fn =
      (.ok ({ s with price_history_yes := some (fetchPricesHistory fy),
                     price_history_no := some (fetchPricesHistory fn) },
            ⟨ty, now - hb * 3600, now, fidelityToInterval fid⟩,
            ⟨tn, now - hb * 3600, now, fidelityToInterval fid⟩), true) ∧
    (fidelityToInterval fid = "1m" ∨ fidelityToInterval fid = "5m" ∨
     fidelityToInterval fid = "15m" ∨ fidelityToInterval fid = "1h" ∨
     fidelityToInterval fid = "1d") := by
  constructor
  · unfold loadPriceHistory
    rw [hty, htn]
    dsimp only
    rw [if_neg (not_or.mpr ⟨hty', htn'⟩)]
  · unfold fidelityToInterval
    split_ifs <;> simp

/-- C9 amended witness: the absolute-mode theorem at a concrete 200-hour
lookback request. -/
theorem loadPriceHistory_absolute_mode_witness :
    loadPriceHistory tokState 1000000 200 5 [] [] =
      (.ok ({ tokState with price_history_yes := some (fetchPricesHistory []),
                            price_history_no := some (fetchPricesHistory []) },
            ⟨"tokY", 1000000 - 200 * 3600, 1000000, fidelityToInterval 5⟩,
            ⟨"tokN", 1000000 - 200 * 3600, 1000000, fidelityToInterval 5⟩), true) ∧
    (fidelityToInterval 5 = "1m" ∨ fidelityToInterval 5 = "5m" ∨
     fidelityToInterval 5 = "15m" ∨ fidelityToInterval 5 = "1h" ∨
     fidelityToInterval 5 = "1d") :=
  loadPriceHistory_absolute_mode tokState "tokY" "tokN" 1000000 200 5 [] []
    rfl rfl (by decide) (by decide)

end BettingMkts

namespace BettingMkts

lemma derive_token_yes (s : MarketState) :
    (deriveNoSideQuotes s).clob_token_yes = s.clob_token_yes := by
  unfold deriveNoSideQuotes
  rcases hb : s.best_bid_yes with _ | b <;> rcases ha : s.best_ask_yes with _ | a <;>
    simp [hb, ha]

lemma derive_token_no (s : MarketState) :
    (deriveNoSideQuotes s).clob_token_no = s.clob_token_no := by
  unfold deriveNoSideQuotes
  rcases hb : s.best_bid_yes with _ | b <;> rcases ha : s.best_ask_yes with _ | a <;>
    simp [hb, ha]

lemma derive_end_date (s : MarketState) :
    (deriveNoSideQuotes s).end_date = s.end_date := by
  unfold deriveNoSideQuotes
  rcases hb : s.best_bid_yes with _ | b <;> rcases ha : s.best_ask_yes with _ | a <;>
    simp [hb, ha]

/-- C6: when the `clobTokenIds` field fails to decode or decodes to fewer
than two entries, construction still succeeds with both token fields absent;
and whenever either token field is absent, `load_all_trades` and
`load_price_history` fail with the token-unavailable `ValueError` with no
network request issued. -/
theorem tokens_fail_fast :
    (∀ (decode : String → Option (List String)) (parse : String → Option ℤ)
        (mid raw : String) (details : MarketDetails),
      details.clobTokenIds = some raw → raw ≠ "" →
      (decode raw = none ∨ ∃ ts, decode raw = some ts ∧ ts.length < 2) →
      (fromMarketId decode parse mid details).clob_token_yes = none ∧
        (fromMarketId decode parse mid details).clob_token_no = none) ∧
    (∀ (s : MarketState) (raw : List RawTrade),
      s.clob_token_yes = none ∨ s.clob_token_no = none →
      loadAllTrades s raw =
        (.error "ValueError: clob_token_yes/no not set. Did you use from_market_id()?",
         false)) ∧
    (∀ (s : MarketState) (now hb fid : ℤ) (fy fn : List RawHistPoint),
      s.clob_token_yes = none ∨ s.clob_token_no = none →
      loadPriceHistory s now hb fid fy fn =
        (.error "ValueError: clob_token_yes/no not set. Use from_market_id() first.",
         false)) := by
  refine ⟨?_, ?_, ?_⟩
  · intro decode parse mid raw details hraw hne hfail
    rcases hfail with hnone | ⟨ts, hts, hlen⟩
    · constructor <;>
        simp [fromMarketId, derive_token_yes, derive_token_no, hraw, hne, hnone]
    · have h2 : ¬(2 ≤ ts.length) := by omega
      constructor <;>
        simp [fromMarketId, derive_token_yes, derive_token_no, hraw, hne, hts, h2]
  · intro s raw h
    rcases hy : s.clob_token_yes with _ | a <;>
      rcases hn : s.clob_token_no with _ | b <;>
        (unfold loadAllTrades
         rw [hy, hn]
         all_goals
           first
             | rfl
             | simp_all)
  · intro s now hb fid fy fn h
    rcases hy : s.clob_token_yes with _ | a <;>
      rcases hn : s.clob_token_no with _ | b <;>
        (unfold loadPriceHistory
         rw [hy, hn]
         all_goals
           first
             | rfl
             | simp_all)

/-- The metadata record of a market whose token list does not decode. -/
def badTokenDetails : MarketDetails := { clobTokenIds := some "notjson" }

/-- The metadata record of a market whose token list decodes to a single
entry. -/
def shortTokenDetails : MarketDetails := { clobTokenIds := some "[\x22a\x22]" }

/-- A state without token identifiers (as construction leaves it when the
token list is unusable). -/
def noTokenState : MarketState := { market_id := "mkt-2", question := "q?" }

/-- C6 witness: a failing decode and a one-entry decode both construct with
absent tokens; trade and history loads on a tokenless state fail before any
network call. -/
theorem tokens_fail_fast_witness :
    ((fromMarketId (fun _ => none) (fun _ => none) "m1" badTokenDetails).clob_token_yes = none ∧
      (fromMarketId (fun _ => none) (fun _ => none) "m1" badTokenDetails).clob_token_no = none) ∧
    ((fromMarketId (fun _ => some ["a"]) (fun _ => none) "m1" shortTokenDetails).clob_token_yes = none ∧
      (fromMarketId (fun _ => some ["a"]) (fun _ => none) "m1" shortTokenDetails).clob_token_no = none) ∧
    loadAllTrades noTokenState [] =
      (.error "ValueError: clob_token_yes/no not set. Did you use from_market_id()?",
       false) ∧
    loadPriceHistory noTokenState 1000 24 5 [] [] =
      (.error "ValueError: clob_token_yes/no not set. Use from_market_id() first.",
       false) :=
  ⟨tokens_fail_fast.1 (fun _ => none) (fun _ => none) "m1" "notjson" badTokenDetails
      rfl (by decide) (Or.inl rfl),
   tokens_fail_fast.1 (fun _ => some ["a"]) (fun _ => none) "m1" "[\x22a\x22]"
      shortTokenDetails rfl (by decide) (Or.inr ⟨["a"], rfl, by decide⟩),
   tokens_fail_fast.2.1 noTokenState [] (Or.inl rfl),
   tokens_fail_fast.2.2 noTokenState 1000 24 5 [] [] (Or.inl rfl)⟩

end BettingMkts

namespace BettingMkts

/-- A market state carrying an end date from an earlier successful parse. -/
def staleDateState : MarketState :=
  { market_id := "mkt-3", question := "q?", end_date := some 5 }

/-- A metadata record whose end date does not parse. -/
def badDateDetails : MarketDetails := { endDate := some "not-a-date" }

/-- C7 counterexample: on a quote refresh whose end-date string fails to
parse, the previous `end_date` value is kept (`pass`), not set to absent as
the claim states. -/
theorem refreshQuotes_keeps_stale_end_date :
    (refreshQuotes (fun _ => none) staleDateState badDateDetails).end_date = some 5 ∧
      (refreshQuotes (fun _ => none) staleDateState badDateDetails).end_date ≠ none := by
  constructor
  · rfl
  · intro h
    rw [show (refreshQuotes (fun _ => none) staleDateState badDateDetails).end_date
        = some 5 from rfl] at h
    cases h

/-- C7 (amended): at construction, an end-date string that fails ISO-8601
parsing (after normalizing the `Z` suffix to `+00:00`) yields an absent
`end_date`; on a quote refresh, a missing, empty, or unparseable end-date
string leaves the previous `end_date` unchanged; in neither case does the
operation raise. -/
theorem endDate_parse_failure_spec :
    (∀ (decode : String → Option (List String)) (parse : String → Option ℤ)
        (mid ed : String) (details : MarketDetails),
      details.endDate = some ed → parse (ed.replace "Z" "+00:00") = none →
      (fromMarketId decode parse mid details).end_date = none) ∧
    (∀ (parse : String → Option ℤ) (s : MarketState) (details : MarketDetails),
      details.endDate = none → (refreshQuotes parse s details).end_date = s.end_date) ∧
    (∀ (parse : String → Option ℤ) (s : MarketState) (details : MarketDetails)
        (ed : String),
      details.endDate = some ed →
      (ed = "" ∨ parse (ed.replace "Z" "+00:00") = none) →
      (refreshQuotes parse s details).end_date = s.end_date) := by
  refine ⟨?_, ?_, ?_⟩
  · intro decode parse mid ed details hed hparse
    simp [fromMarketId, derive_end_date, postInitEndDate, hed, hparse]
  · intro parse s details hed
    unfold refreshQuotes
    rw [derive_end_date, hed]
  · intro parse s details ed hed hfail
    unfold refreshQuotes
    rw [derive_end_date, hed]
    dsimp only
    rcases hfail with rfl | hparse
    · rw [if_pos rfl]
    · by_cases he : ed = ""
      · rw [if_pos he]
      · rw [if_neg he, hparse]

/-- C7 witness: construction with an unparseable date yields an absent
`end_date`; a refresh with an unparseable date keeps the previous value. -/
theorem endDate_parse_failure_spec_witness :
    (fromMarketId (fun _ => none) (fun _ => none) "m1" badDateDetails).end_date = none ∧
    (refreshQuotes (fun _ => none) staleDateState badDateDetails).end_date =
      staleDateState.end_date :=
  ⟨endDate_parse_failure_spec.1 (fun _ => none) (fun _ => none) "m1" "not-a-date"
      badDateDetails rfl rfl,
   endDate_parse_failure_spec.2.2 (fun _ => none) staleDateState badDateDetails
      "not-a-date" rfl (Or.inr rfl)⟩

end BettingMkts
